import Mathlib

/-!
Shallow embedding of the scs-crypter package (scscrypter.go): an SCS session
codec that serializes a session record with gob and seals it with an AEAD
cipher into a `nonce || sealed_data` envelope.

Modelling conventions:
* Go byte slices are `List Nat` (`Bytes`); `nil` and the empty slice both
  become `[]`.
* The AEAD primitives (AES-GCM, ChaCha20-Poly1305, XChaCha20-Poly1305) are
  external collaborators; they are modelled as a structure carrying a nonce
  size, a seal operation and an open operation.  Because Go's
  `cipher.NewGCMWithRandomNonce` draws randomness inside `Seal`, the modelled
  seal operation takes an explicit randomness stream as its first argument
  (standard AEADs ignore it); the additional-authenticated-data argument of
  Go's `Seal`/`Open` is kept.
* The process-wide random source `crypto/rand.Reader` is modelled as an
  explicit byte stream passed to the sealing operations; `io.ReadFull`
  failing is modelled by the stream holding fewer bytes than requested.
* Go errors become an inductive error kind; `fmt.Errorf("...: %w", err)`
  wrapping preserves the wrapped kind (as `errors.Is` does in Go), so the
  wrapping is dropped in the model.
* The gob encoder/decoder is an external collaborator; it is modelled as a
  pair of partial functions (`GobCodec`), with `none` standing for gob's
  error return (unsupported value type on encode, malformed bytes on decode).
-/

set_option autoImplicit false

namespace scscrypter

/-- Go `[]byte`, with each byte a natural number. -/
abbrev Bytes := List Nat

/-- Decidable equality for `Except` results, so concrete outcomes can be
checked by `decide`. -/
instance instDecEqExcept {ε α : Type} [DecidableEq ε] [DecidableEq α] :
    DecidableEq (Except ε α) := fun x y =>
  match x, y with
  | .error a, .error b =>
    if h : a = b then .isTrue (by rw [h]) else .isFalse (by simp [h])
  | .ok a, .ok b =>
    if h : a = b then .isTrue (by rw [h]) else .isFalse (by simp [h])
  | .error _, .ok _ => .isFalse (by simp)
  | .ok _, .error _ => .isFalse (by simp)

/-- Error kinds surfaced by the package and its collaborators.  `noCipher`
is `ErrNoCipher`, `ciphertextTooShort` is `ErrCiphertextTooShort`; the other
kinds stand for the distinct wrapped collaborator failures (AES key setup,
AEAD construction, random-source failure, AEAD open failure, gob encode
failure, gob decode failure). -/
inductive CrypterError where
  | noCipher
  | ciphertextTooShort
  | keySetup
  | aeadSetup
  | randomSource
  | authentication
  | serialization
  | deserialization
  deriving DecidableEq

/-- Model of Go's `cipher.AEAD` interface as used by this package.
`Seal rand nonce plaintext aad` returns the sealed output that Go's
`Seal(dst, nonce, plaintext, aad)` appends to `dst`; the extra `rand`
stream models randomness some implementations (the randomized-nonce GCM
variant) draw internally during `Seal`.  `Open nonce ciphertext aad`
returns `some plaintext` on success and `none` when Go's `Open` returns an
error. -/
structure AEAD where
  NonceSize : Nat
  Seal : Bytes → Bytes → Bytes → Bytes → Bytes
  Open : Bytes → Bytes → Bytes → Option Bytes

/-- The `Encrypter` struct: it holds one `cipher.AEAD` field, where Go's
nil interface value is `none`. -/
structure Encrypter where
  cipher : Option AEAD

/-- The generic constructor `New`: wraps the given AEAD (possibly nil)
without any check. -/
def New (aead : Option AEAD) : Encrypter :=
  { cipher := aead }

/-- Black-box core of an AEAD primitive family, keyed: `sealC key nonce
plaintext aad` and `openC key nonce ciphertext aad`.  The package treats
the cipher internals as opaque; theorems about them take the standard AEAD
contract as hypotheses. -/
structure AEADCore where
  sealC : Bytes → Bytes → Bytes → Bytes → Bytes
  openC : Bytes → Bytes → Bytes → Bytes → Option Bytes

/-- Model of Go `aes.NewCipher`: succeeds exactly when the key is 16, 24 or
32 bytes long, otherwise returns `aes.KeySizeError` (kind `keySetup`).  The
block cipher itself is represented by its key, to be interpreted by an
`AEADCore`. -/
def aesNewCipher (key : Bytes) : Except CrypterError Bytes :=
  if key.length = 16 ∨ key.length = 24 ∨ key.length = 32 then .ok key
  else .error .keySetup

/-- Model of Go `cipher.NewGCMWithRandomNonce` applied to an AES block
cipher.  Per its documentation: `NonceSize` is 0; `Seal` generates a
12-byte random nonce itself and prepends it to the ciphertext; `Open`
expects an empty nonce argument and a ciphertext that starts with the
12-byte nonce, and rejects (`errOpen`) any input shorter than 12 bytes.
Go's `NewGCMWithRandomNonce` can only fail when the block size is not 16
bytes, which cannot happen for an AES block, so the construction itself
always succeeds here. -/
def newGCMWithRandomNonce (core : AEADCore) (key : Bytes) : AEAD :=
  { NonceSize := 0
  , Seal := fun rand _nonce plaintext aad =>
      rand.take 12 ++ core.sealC key (rand.take 12) plaintext aad
  , Open := fun _nonce ciphertext aad =>
      if ciphertext.length < 12 then none
      else core.openC key (ciphertext.take 12) (ciphertext.drop 12) aad }

/-- The `NewAESGCM` constructor: derives an AES block cipher from the key,
then wraps it in the randomized-nonce GCM variant. -/
def NewAESGCM (core : AEADCore) (key : Bytes) : Except CrypterError Encrypter :=
  match aesNewCipher key with
  | .error e => .error e
  | .ok block => .ok (New (some (newGCMWithRandomNonce core block)))

/-- Model of Go `chacha20poly1305.New`: requires a key of exactly 32
bytes (`chacha20poly1305.KeySize`), returning an AEAD with a 12-byte
nonce; any other key length is an error (kind `aeadSetup`). -/
def chacha20poly1305New (core : AEADCore) (key : Bytes) : Except CrypterError AEAD :=
  if key.length = 32 then
    .ok { NonceSize := 12
        , Seal := fun _rand nonce plaintext aad => core.sealC key nonce plaintext aad
        , Open := fun nonce ciphertext aad => core.openC key nonce ciphertext aad }
  else .error .aeadSetup

/-- Model of Go `chacha20poly1305.NewX`: like `chacha20poly1305.New` but
with a 24-byte nonce. -/
def chacha20poly1305NewX (core : AEADCore) (key : Bytes) : Except CrypterError AEAD :=
  if key.length = 32 then
    .ok { NonceSize := 24
        , Seal := fun _rand nonce plaintext aad => core.sealC key nonce plaintext aad
        , Open := fun nonce ciphertext aad => core.openC key nonce ciphertext aad }
  else .error .aeadSetup

/-- The `NewChaCha20Poly1305` constructor. -/
def NewChaCha20Poly1305 (core : AEADCore) (key : Bytes) : Except CrypterError Encrypter :=
  match chacha20poly1305New core key with
  | .error e => .error e
  | .ok aead => .ok (New (some aead))

/-- The `NewXChaCha20Poly1305` constructor. -/
def NewXChaCha20Poly1305 (core : AEADCore) (key : Bytes) : Except CrypterError Encrypter :=
  match chacha20poly1305NewX core key with
  | .error e => .error e
  | .ok aead => .ok (New (some aead))

/-- The private `encrypt` method.  Mirrors the source line by line: nil
cipher check; a nonce buffer of `NonceSize` bytes filled from the random
source (`io.ReadFull` fails, kind `randomSource`, when the stream holds
fewer bytes); then `Seal(nonce, nonce, data, nil)`, whose result is the
nonce followed by the sealed output. -/
def Encrypter.encrypt (e : Encrypter) (rand : Bytes) (data : Bytes) :
    Except CrypterError Bytes :=
  match e.cipher with
  | none => .error .noCipher
  | some c =>
    if rand.length < c.NonceSize then .error .randomSource
    else
      let nonce := rand.take c.NonceSize
      .ok (nonce ++ c.Seal (rand.drop c.NonceSize) nonce data [])

/-- The private `decrypt` method.  Mirrors the source: nil cipher check;
`ErrCiphertextTooShort` when the buffer is shorter than the nonce size;
then the buffer is split at the nonce size and `Open(nil, nonce,
ciphertext, nil)` is called, whose error return is kind
`authentication`. -/
def Encrypter.decrypt (e : Encrypter) (data : Bytes) :
    Except CrypterError Bytes :=
  match e.cipher with
  | none => .error .noCipher
  | some c =>
    if data.length < c.NonceSize then .error .ciphertextTooShort
    else
      match c.Open (data.take c.NonceSize) (data.drop c.NonceSize) [] with
      | some plaintext => .ok plaintext
      | none => .error .authentication

/-- Model of the external gob serializer over a deadline type `T` and a
session-values type `V`: `enc` serializes the auxiliary record
`{Deadline, Values}` (`none` = gob error, e.g. an unsupported value type),
`dec` deserializes it (`none` = malformed bytes). -/
structure GobCodec (T V : Type) where
  enc : T → V → Option Bytes
  dec : Bytes → Option (T × V)

/-- The `Encode` method: builds the auxiliary record, gob-encodes it
(failure kind `serialization`), then hands the serialized bytes to
`encrypt`. -/
def Encrypter.Encode {T V : Type} (e : Encrypter) (g : GobCodec T V)
    (rand : Bytes) (deadline : T) (values : V) : Except CrypterError Bytes :=
  match g.enc deadline values with
  | none => .error .serialization
  | some plaintext => e.encrypt rand plaintext

/-- The `Decode` method: decrypts the buffer (propagating the `decrypt`
error kind), then gob-decodes the recovered plaintext into the auxiliary
record (failure kind `deserialization`) and returns its fields. -/
def Encrypter.Decode {T V : Type} (e : Encrypter) (g : GobCodec T V)
    (ciphertext : Bytes) : Except CrypterError (T × V) :=
  match e.decrypt ciphertext with
  | .error err => .error err
  | .ok data =>
    match g.dec data with
    | none => .error .deserialization
    | some tv => .ok tv

/-! ### Concrete instances used to witness the theorems

The AEAD primitives and gob are external collaborators, so the theorems
below are parametric in an `AEADCore` and a `GobCodec` and assume only
their documented contracts.  To show those hypotheses are satisfiable on
concrete inputs we fix one executable instance of each. -/

/-- Toy 16-byte tag for the toy AEAD core; it binds key, nonce, plaintext
and additional data well enough to reject the concrete tamperings used in
witnesses (it is of course not a real MAC). -/
def toyTag (key nonce plaintext aad : Bytes) : Bytes :=
  List.replicate 16
    ((key.sum + 2 * nonce.sum + 3 * plaintext.sum + 5 * aad.sum + plaintext.length) % 256)

/-- Toy executable instantiation of the black-box AEAD core: sealing
appends the tag, opening checks length and tag.  It satisfies the AEAD
correctness contract (open inverts seal under the same key, nonce and
additional data). -/
def toyCore : AEADCore :=
  { sealC := fun key nonce plaintext aad => plaintext ++ toyTag key nonce plaintext aad
  , openC := fun key nonce ciphertext aad =>
      if ciphertext.length < 16 then none
      else
        let plaintext := ciphertext.take (ciphertext.length - 16)
        let tag := ciphertext.drop (ciphertext.length - 16)
        if tag = toyTag key nonce plaintext aad then some plaintext else none }

/-- A session value as stored in the `map[string]interface{}` of the
session record.  `vstr` and `vint` are gob-encodable; `vmap` stands for a
`map[string]string` value, which gob rejects inside `interface{}` when the
type is not registered (the repository's tests use exactly this as the
unsupported value type). -/
inductive GobValue where
  | vstr : Bytes → GobValue
  | vint : Nat → GobValue
  | vmap : List (Bytes × Bytes) → GobValue
  deriving DecidableEq

/-- Encoding of one session value in the concrete gob model; `vmap` has no
encoding, mirroring gob's failure on unregistered types. -/
def encValue : GobValue → Option Bytes
  | .vstr s => some (0 :: s.length :: s)
  | .vint n => some [1, n]
  | .vmap _ => none

/-- Length-framed encoding of the session-values mapping (a list of
key-value pairs) in the concrete gob model. -/
def encEntries : List (Bytes × GobValue) → Option Bytes
  | [] => some []
  | (k, v) :: rest =>
    match encValue v, encEntries rest with
    | some bv, some brest => some (k.length :: (k ++ bv.length :: (bv ++ brest)))
    | _, _ => none

/-- Decoding of one framed session value in the concrete gob model. -/
def decValue : Bytes → Option GobValue
  | 0 :: len :: s => if s.length = len then some (.vstr s) else none
  | [1, n] => some (.vint n)
  | _ => none

/-- Fuelled decoding of the session-values mapping in the concrete gob
model; the fuel is the length of the remaining input. -/
def decEntries : Nat → Bytes → Option (List (Bytes × GobValue))
  | _, [] => some []
  | 0, _ :: _ => none
  | fuel + 1, klen :: rest =>
    if rest.length < klen then none
    else
      match rest.drop klen with
      | [] => none
      | vlen :: rest2 =>
        if rest2.length < vlen then none
        else
          match decValue (rest2.take vlen), decEntries fuel (rest2.drop vlen) with
          | some v, some vs => some ((rest.take klen, v) :: vs)
          | _, _ => none

/-- Concrete executable model of the external gob serializer over deadline
type `Nat` and values type `List (Bytes × GobValue)`, satisfying the
serializer contract (deterministic round-trip for supported values,
explicit failure for unsupported value types and malformed input). -/
def gobModel : GobCodec Nat (List (Bytes × GobValue)) :=
  { enc := fun t vs => (encEntries vs).map (fun b => t :: b)
  , dec := fun b =>
      match b with
      | [] => none
      | t :: rest => (decEntries rest.length rest).map (fun vs => (t, vs)) }

/-- A 16-byte AES-128 key used in witnesses. -/
def key16 : Bytes := List.replicate 16 0

/-- A 32-byte key (AES-256 / ChaCha20-Poly1305) used in witnesses. -/
def key32 : Bytes := List.replicate 32 0

/-- A 12-byte randomness stream used in witnesses. -/
def rand12 : Bytes := List.replicate 12 0

/-- The AEAD value produced by `chacha20poly1305New toyCore key32`. -/
def toyChaChaAEAD : AEAD :=
  { NonceSize := 12
  , Seal := fun _rand nonce plaintext aad => toyCore.sealC key32 nonce plaintext aad
  , Open := fun nonce ciphertext aad => toyCore.openC key32 nonce ciphertext aad }

/-- The encrypter produced by `NewChaCha20Poly1305 toyCore key32`. -/
def toyChaChaEnc : Encrypter := New (some toyChaChaAEAD)

/-- The encrypter produced by `NewAESGCM toyCore key16`. -/
def toyAESEnc : Encrypter := New (some (newGCMWithRandomNonce toyCore key16))

/-- Predicate from the tamper-detection property: `d` arises from the
envelope `env` by flipping a single byte (replacing the byte at some
position with a different value) or by truncating it by at least one
byte. -/
def Tampering (env d : Bytes) : Prop :=
  (∃ i b, i < env.length ∧ b ≠ env.getD i 0 ∧ d = env.set i b) ∨
  (∃ k, k < env.length ∧ d = env.take k)

/-- Go value-receiver call semantics for `Encode` (with `encrypt` inlined,
as it runs on a copy of the same receiver): the body threaded with the
receiver it executes on.  No statement of the source body assigns to the
receiver or its `cipher` field, so every branch of the translation returns
the receiver it was given alongside the result. -/
def Encrypter.EncodeCall {T V : Type} (e : Encrypter) (g : GobCodec T V)
    (rand : Bytes) (deadline : T) (values : V) :
    Except CrypterError Bytes × Encrypter :=
  match g.enc deadline values with
  | none => (.error .serialization, e)
  | some plaintext =>
    match e.cipher with
    | none => (.error .noCipher, e)
    | some c =>
      if rand.length < c.NonceSize then (.error .randomSource, e)
      else
        let nonce := rand.take c.NonceSize
        (.ok (nonce ++ c.Seal (rand.drop c.NonceSize) nonce plaintext []), e)

/-- Go value-receiver call semantics for `Decode` (with `decrypt` inlined):
like `Encrypter.EncodeCall`, every branch returns the receiver it was given
alongside the result. -/
def Encrypter.DecodeCall {T V : Type} (e : Encrypter) (g : GobCodec T V)
    (ciphertext : Bytes) : Except CrypterError (T × V) × Encrypter :=
  match e.cipher with
  | none => (.error .noCipher, e)
  | some c =>
    if ciphertext.length < c.NonceSize then (.error .ciphertextTooShort, e)
    else
      match c.Open (ciphertext.take c.NonceSize) (ciphertext.drop c.NonceSize) [] with
      | none => (.error .authentication, e)
      | some data =>
        match g.dec data with
        | none => (.error .deserialization, e)
        | some tv => (.ok tv, e)

/-- The envelope `toyChaChaEnc.encrypt rand12 [7]` produces: the 12 zero
nonce bytes, the single plaintext byte, then the 16-byte toy tag. -/
def toyEnv : Bytes := List.replicate 12 0 ++ ([7] ++ List.replicate 16 22)

/-- `toyEnv` with the plaintext byte (position 12) flipped from 7 to 8. -/
def toyTampered : Bytes := toyEnv.set 12 8

/-- Sanity lemma tying the toy instances to the constructors: the
ChaCha20-Poly1305 constructor on the 32-byte key yields exactly
`toyChaChaEnc`. -/
theorem newChaCha20Poly1305_toyCore_key32 :
    NewChaCha20Poly1305 toyCore key32 = .ok toyChaChaEnc := rfl

/-- Sanity lemma tying the toy instances to the constructors: the AES-GCM
constructor on the 16-byte key yields exactly `toyAESEnc`. -/
theorem newAESGCM_toyCore_key16 : NewAESGCM toyCore key16 = .ok toyAESEnc := rfl

/-- Sanity lemma: `toyEnv` is the envelope the toy ChaCha20-Poly1305 codec
produces for the plaintext `[7]` under the 12-byte zero randomness. -/
theorem toyChaChaEnc_encrypt_toyEnv : toyChaChaEnc.encrypt rand12 [7] = .ok toyEnv := by
  decide

/-- C4 counterexample: with a nil cipher and a values mapping holding a
`map[string]string` value (which the serializer cannot encode), `Encode`
fails with the serialization error, not `ErrNoCipher` — so `Encode` does
not always fail with `NoCipherError` on a cipher-less codec. -/
theorem nilCipher_encode_not_always_noCipher :
    (New none).Encode gobModel [] 0 [([107], GobValue.vmap [])] = .error .serialization ∧
    (New none).Encode gobModel [] 0 [([107], GobValue.vmap [])] ≠ .error .noCipher := by
  decide

/-- C4 (amended): with a nil cipher, `Decode` always fails with
`NoCipherError`, and `Encode` fails with `NoCipherError` for every values
mapping the serializer can encode; when serialization itself fails,
`Encode` fails with `SerializationError` instead.  Either way both
operations are total (never panic) and always fail. -/
theorem nilCipher_operations_fail {T V : Type} (e : Encrypter) (g : GobCodec T V)
    (rand d : Bytes) (t : T) (v : V) (hnil : e.cipher = none) :
    (∀ b, g.enc t v = some b → e.Encode g rand t v = .error .noCipher) ∧
    (g.enc t v = none → e.Encode g rand t v = .error .serialization) ∧
    e.Decode g d = .error .noCipher := by
  refine ⟨fun b hb => ?_, fun hb => ?_, ?_⟩
  · simp [Encrypter.Encode, hb, Encrypter.encrypt, hnil]
  · simp [Encrypter.Encode, hb]
  · simp [Encrypter.Decode, Encrypter.decrypt, hnil]

/-- C4 witness: the amended statement evaluated on the cipher-less codec,
with a supported mapping for the encode branch. -/
theorem nilCipher_operations_fail_witness :
    (New none : Encrypter).cipher = none ∧
    ((∀ b, gobModel.enc 0 [([97], GobValue.vstr [98])] = some b →
        (New none).Encode gobModel [] 0 [([97], GobValue.vstr [98])] = .error .noCipher) ∧
      (gobModel.enc 0 [([97], GobValue.vstr [98])] = none →
        (New none).Encode gobModel [] 0 [([97], GobValue.vstr [98])] = .error .serialization) ∧
      (New none).Decode gobModel [1] = .error .noCipher) :=
  ⟨rfl, nilCipher_operations_fail (New none) gobModel [] [1] 0 [([97], GobValue.vstr [98])] rfl⟩

/-- C7: each constructor rejects an invalid key length at construction
time: AES-GCM fails with the key-setup error for any key not of 16, 24 or
32 bytes, and both ChaCha20-Poly1305 constructors fail with the
AEAD-setup error for any key not of exactly 32 bytes.  The error is
returned by the constructor itself, so no usable `Encrypter` is produced
and nothing is deferred to the first `Encode`/`Decode` call. -/
theorem constructors_reject_invalid_keys (core : AEADCore) (key : Bytes) :
    (¬(key.length = 16 ∨ key.length = 24 ∨ key.length = 32) →
      NewAESGCM core key = .error .keySetup) ∧
    (key.length ≠ 32 → NewChaCha20Poly1305 core key = .error .aeadSetup) ∧
    (key.length ≠ 32 → NewXChaCha20Poly1305 core key = .error .aeadSetup) := by
  refine ⟨fun h => ?_, fun h => ?_, fun h => ?_⟩
  · simp [NewAESGCM, aesNewCipher, h]
  · simp [NewChaCha20Poly1305, chacha20poly1305New, h]
  · simp [NewXChaCha20Poly1305, chacha20poly1305NewX, h]

/-- C7 witness: the three constructors evaluated at the 1-byte key from
the spec's test scenario. -/
theorem constructors_reject_invalid_keys_witness :
    NewAESGCM toyCore [0] = .error .keySetup ∧
    NewChaCha20Poly1305 toyCore [0] = .error .aeadSetup ∧
    NewXChaCha20Poly1305 toyCore [0] = .error .aeadSetup :=
  ⟨(constructors_reject_invalid_keys toyCore [0]).1 (by decide),
   (constructors_reject_invalid_keys toyCore [0]).2.1 (by decide),
   (constructors_reject_invalid_keys toyCore [0]).2.2 (by decide)⟩

/-- C8: whenever the serializer has no encoding for the values mapping,
`Encode` fails with `SerializationError` and returns no bytes at all (in
particular no partial envelope), for every deadline, randomness and codec
state. -/
theorem encode_unsupported_value_serialization_error {T V : Type} (e : Encrypter)
    (g : GobCodec T V) (rand : Bytes) (t : T) (v : V) (hv : g.enc t v = none) :
    e.Encode g rand t v = .error .serialization ∧
    ∀ b, e.Encode g rand t v ≠ .ok b := by
  refine ⟨?_, ?_⟩ <;> simp [Encrypter.Encode, hv]

/-- C8 witness: `Encode` on the toy ChaCha20-Poly1305 codec with a
mapping holding an un-encodable `map[string]string` value. -/
theorem encode_unsupported_value_serialization_error_witness :
    gobModel.enc 0 [([107], GobValue.vmap [])] = none ∧
    (toyChaChaEnc.Encode gobModel rand12 0 [([107], GobValue.vmap [])] =
        .error .serialization ∧
      ∀ b, toyChaChaEnc.Encode gobModel rand12 0 [([107], GobValue.vmap [])] ≠ .ok b) :=
  ⟨by decide,
   encode_unsupported_value_serialization_error toyChaChaEnc gobModel rand12 0
     [([107], GobValue.vmap [])] (by decide)⟩

/-- C10: `Encode` runs the serializer before `encrypt` performs the nil
cipher check, so on a cipher-less codec with an un-encodable values
mapping the result is the serialization error, not `ErrNoCipher`. -/
theorem encode_serializes_before_cipher_check {T V : Type} (g : GobCodec T V)
    (rand : Bytes) (t : T) (v : V) (e : Encrypter) (hnil : e.cipher = none)
    (hv : g.enc t v = none) :
    e.Encode g rand t v = .error .serialization ∧
    e.Encode g rand t v ≠ .error .noCipher := by
  refine ⟨?_, ?_⟩ <;> simp [Encrypter.Encode, hv]

/-- C10 witness: the cipher-less codec with the un-encodable mapping. -/
theorem encode_serializes_before_cipher_check_witness :
    (New none : Encrypter).cipher = none ∧
    gobModel.enc 0 [([107], GobValue.vmap [])] = none ∧
    ((New none).Encode gobModel [] 0 [([107], GobValue.vmap [])] = .error .serialization ∧
      (New none).Encode gobModel [] 0 [([107], GobValue.vmap [])] ≠ .error .noCipher) :=
  ⟨rfl, by decide,
   encode_serializes_before_cipher_check gobModel [] 0 [([107], GobValue.vmap [])]
     (New none) rfl (by decide)⟩

/-- C5: with a present cipher, `Decode` is a total function of its input
(so it cannot panic, also on nil or empty buffers), its outcome is always
one of success, `CiphertextTooShortError`, `AuthenticationError` or
`DeserializationError`, and it fails with `CiphertextTooShortError`
exactly when the buffer is shorter than the cipher's nonce size. -/
theorem decode_tooShort_iff {T V : Type} (e : Encrypter) (c : AEAD) (g : GobCodec T V)
    (d : Bytes) (hc : e.cipher = some c) :
    (e.Decode g d = .error .ciphertextTooShort ↔ d.length < c.NonceSize) ∧
    (e.Decode g d = .error .ciphertextTooShort ∨
      e.Decode g d = .error .authentication ∨
      e.Decode g d = .error .deserialization ∨
      ∃ tv, e.Decode g d = .ok tv) := by
  by_cases h : d.length < c.NonceSize
  · have hd : e.Decode g d = .error .ciphertextTooShort := by
      simp [Encrypter.Decode, Encrypter.decrypt, hc, h]
    exact ⟨by simp [hd, h], Or.inl hd⟩
  · cases hop : c.Open (d.take c.NonceSize) (d.drop c.NonceSize) [] with
    | none =>
      have hd : e.Decode g d = .error .authentication := by
        simp [Encrypter.Decode, Encrypter.decrypt, hc, h, hop]
      exact ⟨by simp [hd, h], Or.inr (Or.inl hd)⟩
    | some pt =>
      cases hdec : g.dec pt with
      | none =>
        have hd : e.Decode g d = .error .deserialization := by
          simp [Encrypter.Decode, Encrypter.decrypt, hc, h, hop, hdec]
        exact ⟨by simp [hd, h], Or.inr (Or.inr (Or.inl hd))⟩
      | some tv =>
        have hd : e.Decode g d = .ok tv := by
          simp [Encrypter.Decode, Encrypter.decrypt, hc, h, hop, hdec]
        exact ⟨by simp [hd, h], Or.inr (Or.inr (Or.inr ⟨tv, hd⟩))⟩

/-- C5 witness: the toy ChaCha20-Poly1305 codec on the 1-byte buffer. -/
theorem decode_tooShort_iff_witness :
    toyChaChaEnc.cipher = some toyChaChaAEAD ∧
    ((toyChaChaEnc.Decode gobModel [1] = .error .ciphertextTooShort ↔
        ([1] : Bytes).length < toyChaChaAEAD.NonceSize) ∧
      (toyChaChaEnc.Decode gobModel [1] = .error .ciphertextTooShort ∨
        toyChaChaEnc.Decode gobModel [1] = .error .authentication ∨
        toyChaChaEnc.Decode gobModel [1] = .error .deserialization ∨
        ∃ tv, toyChaChaEnc.Decode gobModel [1] = .ok tv)) :=
  ⟨rfl, decode_tooShort_iff toyChaChaEnc toyChaChaAEAD gobModel [1] rfl⟩

/-- C6: a call of `encrypt` succeeds exactly when the random source can
supply `NonceSize` bytes, the nonce is exactly the first `NonceSize` bytes
drawn from the random source (so it has exactly the cipher's required
size), the seal primitive is invoked with that nonce, the plaintext and
empty additional data, and the returned envelope is the nonce followed by
the sealed data; when the random source cannot supply the nonce, the call
fails with `RandomSourceError`.  The function is pure, so its only effect
is consuming the randomness. -/
theorem encrypt_nonce_and_envelope (e : Encrypter) (c : AEAD) (rand data : Bytes)
    (hc : e.cipher = some c) :
    (∀ out, e.encrypt rand data = .ok out ↔
      (c.NonceSize ≤ rand.length ∧
        out = rand.take c.NonceSize ++
          c.Seal (rand.drop c.NonceSize) (rand.take c.NonceSize) data [])) ∧
    (c.NonceSize ≤ rand.length → (rand.take c.NonceSize).length = c.NonceSize) ∧
    (rand.length < c.NonceSize → e.encrypt rand data = .error .randomSource) := by
  refine ⟨fun out => ?_, fun h => ?_, fun h => ?_⟩
  · by_cases h : rand.length < c.NonceSize
    · constructor
      · intro hEq
        simp [Encrypter.encrypt, hc, h] at hEq
      · rintro ⟨hle, -⟩
        exact absurd h (Nat.not_lt.mpr hle)
    · have hle : c.NonceSize ≤ rand.length := Nat.le_of_not_lt h
      simp [Encrypter.encrypt, hc, h, hle, eq_comm]
  · simpa [List.length_take] using Nat.min_eq_left h
  · simp [Encrypter.encrypt, hc, h]

/-- C6 witness: the toy ChaCha20-Poly1305 codec sealing the one-byte
plaintext with a 12-byte random stream. -/
theorem encrypt_nonce_and_envelope_witness :
    toyChaChaEnc.cipher = some toyChaChaAEAD ∧
    ((∀ out, toyChaChaEnc.encrypt rand12 [7] = .ok out ↔
        (toyChaChaAEAD.NonceSize ≤ rand12.length ∧
          out = rand12.take toyChaChaAEAD.NonceSize ++
            toyChaChaAEAD.Seal (rand12.drop toyChaChaAEAD.NonceSize)
              (rand12.take toyChaChaAEAD.NonceSize) [7] [])) ∧
      (toyChaChaAEAD.NonceSize ≤ rand12.length →
        (rand12.take toyChaChaAEAD.NonceSize).length = toyChaChaAEAD.NonceSize) ∧
      (rand12.length < toyChaChaAEAD.NonceSize →
        toyChaChaEnc.encrypt rand12 [7] = .error .randomSource)) :=
  ⟨rfl, encrypt_nonce_and_envelope toyChaChaEnc toyChaChaAEAD rand12 [7] rfl⟩

/-- C3 counterexample: `NewAESGCM` wraps the key in Go's
`cipher.NewGCMWithRandomNonce`, whose `NonceSize` is 0, not 12; on the
1-byte buffer `Decode` fails with the authentication error (the GCM open
rejects any input shorter than its internal 12-byte nonce), not with
`ErrCiphertextTooShort`. -/
theorem aesgcm_nonceSize_twelve_counterexample :
    NewAESGCM toyCore key16 = .ok toyAESEnc ∧
    Option.map AEAD.NonceSize toyAESEnc.cipher = some 0 ∧
    Option.map AEAD.NonceSize toyAESEnc.cipher ≠ some 12 ∧
    toyAESEnc.Decode gobModel [1] ≠ .error .ciphertextTooShort ∧
    toyAESEnc.Decode gobModel [1] = .error .authentication :=
  ⟨rfl, rfl, by decide, by decide, by decide⟩

/-- C3 (amended): an `Encrypter` built by `NewAESGCM` with a valid key
carries the randomized-nonce GCM variant, whose nonce size is 0 (the
12-byte nonce is drawn inside `Seal` and carried at the front of the
sealed data); `Decode` on any buffer shorter than 12 bytes still fails,
but with `AuthenticationError` — the GCM open rejecting the buffer —
rather than `CiphertextTooShortError`. -/
theorem aesgcm_zero_nonceSize_short_buffer_auth {T V : Type} (core : AEADCore)
    (key : Bytes) (g : GobCodec T V) (e : Encrypter) (d : Bytes)
    (hk : NewAESGCM core key = .ok e) (hd : d.length < 12) :
    Option.map AEAD.NonceSize e.cipher = some 0 ∧
    e.Decode g d = .error .authentication := by
  have he : e.cipher = some (newGCMWithRandomNonce core key) := by
    unfold NewAESGCM aesNewCipher at hk
    by_cases hp : key.length = 16 ∨ key.length = 24 ∨ key.length = 32
    · rw [if_pos hp] at hk
      cases hk
      rfl
    · rw [if_neg hp] at hk
      cases hk
  refine ⟨by rw [he]; rfl, ?_⟩
  simp [Encrypter.Decode, Encrypter.decrypt, he, newGCMWithRandomNonce, hd]

/-- C3 amended-claim witness: the AES codec built from the 16-byte key,
decoding the 1-byte buffer. -/
theorem aesgcm_zero_nonceSize_short_buffer_auth_witness :
    NewAESGCM toyCore key16 = .ok toyAESEnc ∧ ([1] : Bytes).length < 12 ∧
    (Option.map AEAD.NonceSize toyAESEnc.cipher = some 0 ∧
      toyAESEnc.Decode gobModel [1] = .error .authentication) :=
  ⟨rfl, by decide,
   aesgcm_zero_nonceSize_short_buffer_auth toyCore key16 gobModel toyAESEnc [1]
     rfl (by decide)⟩

/-- C9: neither `Encode` nor `Decode` mutates the codec: under the
value-receiver call semantics each call leaves the receiver — in
particular its cipher handle — exactly as constructed, while computing
the same result as the plain functional embedding. -/
theorem codec_unchanged_by_calls {T V : Type} (e : Encrypter) (g : GobCodec T V)
    (rand d : Bytes) (t : T) (v : V) :
    (e.EncodeCall g rand t v).2 = e ∧
    (e.DecodeCall g d).2 = e ∧
    (e.EncodeCall g rand t v).1 = e.Encode g rand t v ∧
    (e.DecodeCall g d).1 = e.Decode g d := by
  refine ⟨?_, ?_, ?_, ?_⟩
  · unfold Encrypter.EncodeCall
    split
    · rfl
    · split
      · rfl
      · split <;> rfl
  · unfold Encrypter.DecodeCall
    split
    · rfl
    · split
      · rfl
      · split
        · rfl
        · split <;> rfl
  · unfold Encrypter.EncodeCall Encrypter.Encode Encrypter.encrypt
    split
    · rfl
    · split
      · rfl
      · split <;> rfl
  · unfold Encrypter.DecodeCall Encrypter.Decode Encrypter.decrypt
    split
    · rfl
    · split
      · rfl
      · split
        · simp_all
        · split <;> simp_all

/-- C1: for every session record the serializer can encode and decode
back (the serializer contract), every cipher whose open operation inverts
its seal operation at the call site (the correctness half of the standard
AEAD contract, met by all four supported families — AES-128-GCM,
AES-256-GCM, ChaCha20-Poly1305 and XChaCha20-Poly1305), and a random
source able to supply the nonce, `Encode` succeeds and `Decode` applied
to its result returns exactly the original deadline and values with no
error. -/
theorem encode_decode_roundtrip {T V : Type} (e : Encrypter) (c : AEAD)
    (g : GobCodec T V) (rand plain : Bytes) (t : T) (v : V)
    (hc : e.cipher = some c)
    (henc : g.enc t v = some plain)
    (hrand : c.NonceSize ≤ rand.length)
    (hopen : c.Open (rand.take c.NonceSize)
        (c.Seal (rand.drop c.NonceSize) (rand.take c.NonceSize) plain []) [] =
      some plain)
    (hdec : g.dec plain = some (t, v)) :
    ∃ env, e.Encode g rand t v = .ok env ∧ e.Decode g env = .ok (t, v) := by
  have hnlt : ¬ rand.length < c.NonceSize := Nat.not_lt.mpr hrand
  set N := rand.take c.NonceSize with hN
  set S := c.Seal (rand.drop c.NonceSize) N plain [] with hS
  have hNlen : N.length = c.NonceSize := by
    rw [hN]
    simpa [List.length_take] using Nat.min_eq_left hrand
  refine ⟨N ++ S, ?_, ?_⟩
  · simp [Encrypter.Encode, henc, Encrypter.encrypt, hc, hnlt]
  · have htake : (N ++ S).take c.NonceSize = N := by
      rw [← hNlen]
      exact List.take_left N S
    have hdrop : (N ++ S).drop c.NonceSize = S := by
      rw [← hNlen]
      exact List.drop_left N S
    have hlen : ¬ c.NonceSize + S.length < c.NonceSize :=
      Nat.not_lt.mpr (Nat.le_add_right _ _)
    simp [Encrypter.Decode, Encrypter.decrypt, hc, hNlen, hlen, htake, hdrop, hopen, hdec]

/-- C1 witness: the AES-GCM codec built from the 16-byte key round-trips
the concrete record (deadline 5, mapping with one string entry) using the
12-byte randomness stream. -/
theorem encode_decode_roundtrip_witness :
    toyAESEnc.cipher = some (newGCMWithRandomNonce toyCore key16) ∧
    gobModel.enc 5 [([97], GobValue.vstr [98])] = some [5, 1, 97, 3, 0, 1, 98] ∧
    gobModel.dec [5, 1, 97, 3, 0, 1, 98] = some (5, [([97], GobValue.vstr [98])]) ∧
    (∃ env, toyAESEnc.Encode gobModel rand12 5 [([97], GobValue.vstr [98])] = .ok env ∧
      toyAESEnc.Decode gobModel env = .ok (5, [([97], GobValue.vstr [98])])) :=
  ⟨rfl, by decide, by decide,
   encode_decode_roundtrip toyAESEnc (newGCMWithRandomNonce toyCore key16) gobModel
     rand12 [5, 1, 97, 3, 0, 1, 98] 5 [([97], GobValue.vstr [98])]
     rfl (by decide) (by decide) (by decide) (by decide)⟩

/-- C2: take any valid envelope produced by the seal operation and any
buffer obtained from it by flipping a single byte or truncating it by at
least one byte.  Provided the black-box AEAD primitive rejects the
tampered nonce/sealed-data split (the tamper-detection half of the
standard AEAD contract, which the deterministic embedding takes as a
hypothesis), `Decode` on the same codec fails with `AuthenticationError`
— or with `CiphertextTooShortError` when the tampered buffer is shorter
than the nonce — and never succeeds with any (altered) plaintext
record. -/
theorem decode_rejects_tampering {T V : Type} (e : Encrypter) (c : AEAD)
    (g : GobCodec T V) (rand pt env d : Bytes)
    (hc : e.cipher = some c)
    (henv : e.encrypt rand pt = .ok env)
    (htamp : Tampering env d)
    (hrej : c.NonceSize ≤ d.length →
      c.Open (d.take c.NonceSize) (d.drop c.NonceSize) [] = none) :
    (e.Decode g d = .error .authentication ∨
      e.Decode g d = .error .ciphertextTooShort) ∧
    ∀ tv, e.Decode g d ≠ .ok tv := by
  by_cases h : d.length < c.NonceSize
  · have hd : e.Decode g d = .error .ciphertextTooShort := by
      simp [Encrypter.Decode, Encrypter.decrypt, hc, h]
    exact ⟨Or.inr hd, fun tv => by simp [hd]⟩
  · have hop := hrej (Nat.le_of_not_lt h)
    have hd : e.Decode g d = .error .authentication := by
      simp [Encrypter.Decode, Encrypter.decrypt, hc, h, hop]
    exact ⟨Or.inl hd, fun tv => by simp [hd]⟩

/-- C2 witness: flipping the plaintext byte (position 12) of the concrete
toy ChaCha20-Poly1305 envelope; the toy tag check rejects the flipped
buffer and `Decode` fails with the authentication error. -/
theorem decode_rejects_tampering_witness :
    toyChaChaEnc.encrypt rand12 [7] = .ok toyEnv ∧
    Tampering toyEnv toyTampered ∧
    ((toyChaChaEnc.Decode gobModel toyTampered = .error .authentication ∨
        toyChaChaEnc.Decode gobModel toyTampered = .error .ciphertextTooShort) ∧
      ∀ tv, toyChaChaEnc.Decode gobModel toyTampered ≠ .ok tv) :=
  ⟨by decide, Or.inl ⟨12, 8, by decide, by decide, rfl⟩,
   decode_rejects_tampering toyChaChaEnc toyChaChaAEAD gobModel rand12 [7] toyEnv
     toyTampered rfl (by decide) (Or.inl ⟨12, 8, by decide, by decide, rfl⟩)
     (by decide)⟩

end scscrypter
